import Mathlib

/-!
Verification of the content-addressed R2 storage scripts
(scripts/r2.py and scripts/cleanup_r2.py).

The remote object store (an S3-compatible bucket) is modelled as an
association list from keys to stored objects.  The boto3 client calls map
to the store operations below:

* head_object  -> lookupKey (presence test)
* get_object   -> lookupKey
* put_object / upload_file -> putKey (overwrite)
* delete_object -> eraseKey (idempotent: erasing an absent key is a no-op)
* list_objects_v2 pagination -> filtering the key list by a string test

SHA-256 is not re-implemented; every definition is parameterised by the
digest function sha : List Nat -> String (bytes to lowercase hex digest).
All theorems proved here hold for every such function, in particular for
the real SHA-256; counterexamples instantiate a small concrete digest.

The ThreadPoolExecutor batches are modelled sequentially in submission
order: every submitted task runs (the executor shutdown drains queued and
in-flight work even when the driving loop raises), so the store effect of
a batch is the set of successful operations, and the per-batch event order
in the trace is the submission order.  None of the theorems below depends
on the relative order of events inside one batch.
-/

namespace R2Model

/-- A parsed manifest entry: the JSON object with fields hash, blob, size. -/
structure MEntry where
  hash : String
  blob : String
  size : Nat
deriving DecidableEq

/-- A manifest as a JSON object: deployment path to entry, in insertion
order (Python dict semantics). -/
abbrev Manifest := List (String × MEntry)

/-- An object stored in the bucket: either a content blob or a serialized
manifest (kept in parsed form; json.dumps/json.loads round-trips it). -/
inductive RObj where
  | blob (content : List Nat) : RObj
  | manifestObj (m : Manifest) : RObj
deriving DecidableEq

/-- Bucket state: association list from object key to object. -/
abbrev Store := List (String × RObj)

/-- Model of fetching an object by key (head_object / get_object); none
models the 404 / NoSuchKey outcome. -/
def lookupKey (s : Store) (k : String) : Option RObj :=
  match s with
  | [] => none
  | (k0, v) :: rest => if k0 = k then some v else lookupKey rest k

/-- Model of delete_object: removes every binding of the key; deleting an
absent key is a successful no-op, as for S3. -/
def eraseKey (s : Store) (k : String) : Store :=
  match s with
  | [] => []
  | (k0, v) :: rest => if k0 = k then eraseKey rest k else (k0, v) :: eraseKey rest k

/-- Model of put_object / upload_file: overwrite the key with the object. -/
def putKey (s : Store) (k : String) (v : RObj) : Store :=
  (k, v) :: eraseKey s k

/-- Joint result shape of one cleanup run, for both scripts: the bucket
state after the run, the stats the run reports (the dict cleanup_r2
returns; cmd_cleanup prints the same three quantities), the process exit
status, and the delete_object calls the run issued (whether one was issued
for the closed manifest key, and the blob keys submitted to the deletion
pool). -/
structure CleanupStats where
  orphanedBlobs : Nat
  deletedBlobs : Nat
  deletedManifest : Bool
deriving DecidableEq

structure CleanupOut where
  store : Store
  stats : CleanupStats
  exitCode : Nat
  manifestDeleteIssued : Bool
  blobDeletesIssued : List String
deriving DecidableEq

end R2Model

namespace R2

open R2Model

/-! Transcription of scripts/r2.py: upload half. -/

/-- A regular file found under the dist directory: its path relative to
the root (POSIX, no leading slash), its extension as Path.suffix yields it
(including the leading dot, empty when the name has none), and its bytes.
Its stat size is its byte length. -/
structure SrcFile where
  relPath : String
  suffix : String
  content : List Nat
deriving DecidableEq

/-- hash_file: SHA-256 of the file bytes, first 16 hex characters. -/
def hash_file (sha : List Nat → String) (f : SrcFile) : String :=
  (sha f.content).take 16

/-- get_extension: the path suffix, defaulting to a generic binary
extension when the file name has none. -/
def get_extension (f : SrcFile) : String :=
  if f.suffix = "" then (".bin") else f.suffix

/-- The blob key derived in cmd_upload for one file. -/
def blob_key (sha : List Nat → String) (f : SrcFile) : String :=
  ("blobs/") ++ hash_file sha f ++ get_extension f

/-- blob_exists: head_object succeeding vs the 404 branch. -/
def blob_exists (s : Store) (key : String) : Bool :=
  (lookupKey s key).isSome

/-- Python dict insertion: update in place when the key is present,
append at the end otherwise. -/
def dictInsert : Manifest → String → MEntry → Manifest
  | [], k, v => [(k, v)]
  | (k0, v0) :: rest, k, v =>
    if k0 = k then (k, v) :: rest else (k0, v0) :: dictInsert rest k v

/-- The manifest dict built by the scan loop of cmd_upload, entry by entry
in file order.  It depends only on the local tree and the digest function,
never on the store. -/
def buildManifestFrom (sha : List Nat → String) : Manifest → List SrcFile → Manifest
  | acc, [] => acc
  | acc, f :: fs =>
    buildManifestFrom sha
      (dictInsert acc (("/") ++ f.relPath)
        { hash := hash_file sha f, blob := blob_key sha f, size := f.content.length }) fs

def buildManifest (sha : List Nat → String) (files : List SrcFile) : Manifest :=
  buildManifestFrom sha [] files

/-- blobs_to_upload: the files whose existence check missed, paired with
their blob keys, in scan order. -/
def toUploadOf (sha : List Nat → String) (s : Store) : List SrcFile → List (SrcFile × String)
  | [] => []
  | f :: fs =>
    if blob_exists s (blob_key sha f) then toUploadOf sha s fs
    else (f, blob_key sha f) :: toUploadOf sha s fs

/-- Network and local events of one upload run, in program order. -/
inductive Ev where
  | scanHash (path : String) : Ev
  | headBlob (key : String) : Ev
  | putBlob (key : String) : Ev
  | putManifest (key : String) : Ev
deriving DecidableEq

/-- The local hash step of the scan loop. -/
def isScanEv : Ev → Bool
  | Ev.scanHash _ => true
  | _ => false

/-- Any network call: existence check, blob upload, manifest upload. -/
def isNetworkEv : Ev → Bool
  | Ev.scanHash _ => false
  | _ => true

def isPutBlobEv : Ev → Bool
  | Ev.putBlob _ => true
  | _ => false

def isPutManifestEv : Ev → Bool
  | Ev.putManifest _ => true
  | _ => false

/-- A network write: blob upload or manifest upload. -/
def isWriteEv : Ev → Bool
  | Ev.putBlob _ => true
  | Ev.putManifest _ => true
  | _ => false

/-- phaseOrdered p q t: in the trace t, every p-event strictly precedes
every q-event (equivalently, no p-event occurs at or after a q-event). -/
def phaseOrdered (p q : Ev → Bool) : List Ev → Bool
  | [] => true
  | e :: rest => ((!(q e)) || rest.all (fun x => !(p x))) && phaseOrdered p q rest

/-- The events of the scan loop: hashing each file locally, then its
existence check, file by file. -/
def scanTrace (sha : List Nat → String) : List SrcFile → List Ev
  | [] => []
  | f :: fs =>
    Ev.scanHash (("/") ++ f.relPath) :: Ev.headBlob (blob_key sha f) :: scanTrace sha fs

/-- Store effect of the upload batch: every submitted blob lands except
those whose upload fails (fails is the set of keys whose upload_file
raises). -/
def putBlobs (fails : List String) : Store → List (SrcFile × String) → Store
  | st, [] => st
  | st, (f, k) :: rest =>
    putBlobs fails (if k ∈ fails then st else putKey st k (RObj.blob f.content)) rest

/-- Successful blob PUT events of the upload batch, in submission order. -/
def putTrace (fails : List String) : List (SrcFile × String) → List Ev
  | [] => []
  | (_, k) :: rest =>
    if k ∈ fails then putTrace fails rest else Ev.putBlob k :: putTrace fails rest

/-- The first failing submitted upload, if any: the exception re-raised by
the as_completed loop of cmd_upload. -/
def firstFailing (fails : List String) : List (SrcFile × String) → Option String
  | [] => none
  | (_, k) :: rest => if k ∈ fails then some k else firstFailing fails rest

/-- Result of one cmd_upload run: ok models an explicit return code, exn
models the uncaught upload exception propagating out of main. -/
inductive RunResult where
  | ok (code : Nat) : RunResult
  | exn (key : String) : RunResult
deriving DecidableEq

/-- The process exit status: a returned code, or 1 for an uncaught
exception. -/
def exitCodeOf : RunResult → Nat
  | RunResult.ok c => c
  | RunResult.exn _ => 1

def isExnRes : RunResult → Bool
  | RunResult.ok _ => false
  | RunResult.exn _ => true

structure UploadOut where
  store : Store
  trace : List Ev
  result : RunResult
deriving DecidableEq

/-- cmd_upload.  distOk models dist_dir.is_dir(); files is the list of
regular files rglob finds under it, in traversal order; fails is the set
of blob keys whose upload_file raises.  Phases follow the source: scan
loop (hash + existence check per file), dry-run early return, parallel
blob uploads, manifest publication, zero-file check. -/
def cmd_upload (sha : List Nat → String) (s : Store) (distOk : Bool)
    (files : List SrcFile) (manifest_name : String)
    (dry_run : Bool) (fails : List String) : UploadOut :=
  if distOk then
    let manifest := buildManifest sha files
    let blobs_to_upload := toUploadOf sha s files
    let scanT := scanTrace sha files
    if dry_run then { store := s, trace := scanT, result := RunResult.ok 0 }
    else
      let s1 := putBlobs fails s blobs_to_upload
      let t1 := scanT ++ putTrace fails blobs_to_upload
      match firstFailing fails blobs_to_upload with
      | some k => { store := s1, trace := t1, result := RunResult.exn k }
      | none =>
        let manifest_key := ("manifests/") ++ manifest_name ++ (".json")
        { store := putKey s1 manifest_key (RObj.manifestObj manifest)
          trace := t1 ++ [Ev.putManifest manifest_key]
          result := RunResult.ok (if manifest.length = 0 then 1 else 0) }
  else { store := s, trace := [], result := RunResult.ok 1 }

/-! Transcription of scripts/r2.py: cleanup half. -/

/-- list_objects_with_prefix: every object key beginning with the given
string, the paginator pages concatenated. -/
def list_objects_with_pfx (s : Store) (p : String) : List String :=
  (s.map Prod.fst).filter (fun k => List.isPrefixOf p.data k.data)

/-- get_manifest: fetch and parse a manifest object; none models the
NoSuchKey branch.  (A manifest key never holds a raw blob in any state
these scripts produce.) -/
def get_manifest (s : Store) (manifest_key : String) : Option Manifest :=
  match lookupKey s manifest_key with
  | some (RObj.manifestObj m) => some m
  | some (RObj.blob _) => none
  | none => none

/-- The active manifest names of a cleanup run. -/
def activeNamesOf (open_prs : List Nat) : List String :=
  ("main") :: open_prs.map (fun pr => ("pr-") ++ toString pr)

/-- The reference-collection loop: union (as list accumulation) of the
blob fields of every successfully loaded active manifest; a missing
manifest is skipped, and so is an empty one (an empty dict is falsy). -/
def collectReferenced (s : Store) : List String → List String
  | [] => []
  | n :: ns =>
    match get_manifest s (("manifests/") ++ n ++ (".json")) with
    | some m =>
      if m.isEmpty then collectReferenced s ns
      else (m.map (fun pe => pe.2.blob)) ++ collectReferenced s ns
    | none => collectReferenced s ns

/-- The orphan set of a cleanup run (all_blobs - referenced_blobs), as the
deduplicated blob listing filtered against the collected references. -/
def orphansOf (s : Store) (open_prs : List Nat) : List String :=
  ((list_objects_with_pfx s ("blobs/")).dedup).filter
    (fun k => !(decide (k ∈ collectReferenced s (activeNamesOf open_prs))))

/-- cmd_cleanup.  mDelFail models a ClientError from deleting the closed
manifest (caught and logged); delFail is the set of blob keys whose
delete_object raises (each caught and logged by the as_completed loop).
The deletion pool is modelled by its joint effect: every submitted key
whose delete does not fail is erased. -/
def cmd_cleanup (s : Store) (closed_pr : Nat) (open_prs : List Nat)
    (dry_run : Bool) (mDelFail : Bool) (delFail : List String) : CleanupOut :=
  let orphaned_blobs := orphansOf s open_prs
  let closed_manifest_key := ("manifests/pr-") ++ toString closed_pr ++ (".json")
  if dry_run then
    { store := s
      stats := { orphanedBlobs := orphaned_blobs.length, deletedBlobs := 0,
                 deletedManifest := false }
      exitCode := 0
      manifestDeleteIssued := false
      blobDeletesIssued := [] }
  else
    let deleted_manifest := !mDelFail
    let s1 := if mDelFail then s else eraseKey s closed_manifest_key
    let s2 := orphaned_blobs.foldl (fun st k => if k ∈ delFail then st else eraseKey st k) s1
    let deleted_count := (orphaned_blobs.filter (fun k => !(decide (k ∈ delFail)))).length
    { store := s2
      stats := { orphanedBlobs := orphaned_blobs.length, deletedBlobs := deleted_count,
                 deletedManifest := deleted_manifest }
      exitCode := 0
      manifestDeleteIssued := true
      blobDeletesIssued := orphaned_blobs }

end R2

namespace CR2

open R2Model

/-! Transcription of scripts/cleanup_r2.py (the standalone cleanup
script; its helper functions and the body of cleanup_r2 are duplicated
from r2.py line for line). -/

def list_objects_with_pfx (s : Store) (p : String) : List String :=
  (s.map Prod.fst).filter (fun k => List.isPrefixOf p.data k.data)

def get_manifest (s : Store) (manifest_key : String) : Option Manifest :=
  match lookupKey s manifest_key with
  | some (RObj.manifestObj m) => some m
  | some (RObj.blob _) => none
  | none => none

def activeNamesOf (open_prs : List Nat) : List String :=
  ("main") :: open_prs.map (fun pr => ("pr-") ++ toString pr)

def collectReferenced (s : Store) : List String → List String
  | [] => []
  | n :: ns =>
    match get_manifest s (("manifests/") ++ n ++ (".json")) with
    | some m =>
      if m.isEmpty then collectReferenced s ns
      else (m.map (fun pe => pe.2.blob)) ++ collectReferenced s ns
    | none => collectReferenced s ns

def orphansOf (s : Store) (open_prs : List Nat) : List String :=
  ((list_objects_with_pfx s ("blobs/")).dedup).filter
    (fun k => !(decide (k ∈ collectReferenced s (activeNamesOf open_prs))))

/-- cleanup_r2: same inputs and failure model as R2.cmd_cleanup; the
returned stats dict is the CleanupStats component, and the exit status is
that of its main (which always falls through to a normal exit). -/
def cleanup_r2 (s : Store) (closed_pr : Nat) (open_prs : List Nat)
    (dry_run : Bool) (mDelFail : Bool) (delFail : List String) : CleanupOut :=
  let orphaned_blobs := orphansOf s open_prs
  let closed_manifest_key := ("manifests/pr-") ++ toString closed_pr ++ (".json")
  if dry_run then
    { store := s
      stats := { orphanedBlobs := orphaned_blobs.length, deletedBlobs := 0,
                 deletedManifest := false }
      exitCode := 0
      manifestDeleteIssued := false
      blobDeletesIssued := [] }
  else
    let deleted_manifest := !mDelFail
    let s1 := if mDelFail then s else eraseKey s closed_manifest_key
    let s2 := orphaned_blobs.foldl (fun st k => if k ∈ delFail then st else eraseKey st k) s1
    let deleted_count := (orphaned_blobs.filter (fun k => !(decide (k ∈ delFail)))).length
    { store := s2
      stats := { orphanedBlobs := orphaned_blobs.length, deletedBlobs := deleted_count,
                 deletedManifest := deleted_manifest }
      exitCode := 0
      manifestDeleteIssued := true
      blobDeletesIssued := orphaned_blobs }

end CR2

namespace R2Demo

open R2Model R2

/-! Small concrete inputs used by counterexamples and witnesses. -/

/-- A concrete stand-in digest function for concrete evaluations: the
theorems quantified over the digest hold for any such function. -/
def demoSha : List Nat → String := fun c => ("h") ++ toString c.length

def fHtml : SrcFile := { relPath := ("a.html"), suffix := (".html"), content := [7] }

def fCss : SrcFile := { relPath := ("b.css"), suffix := (".css"), content := [7] }

def fDupA : SrcFile := { relPath := ("x.html"), suffix := (".html"), content := [7, 7] }

def fDupB : SrcFile := { relPath := ("y.html"), suffix := (".html"), content := [7, 7] }

def demoManifest : Manifest :=
  [(("/a.html"), { hash := ("h1"), blob := ("blobs/h1.html"), size := 1 })]

def demoStore : Store :=
  [(("blobs/h1.html"), RObj.blob [7]),
   (("blobs/h9.css"), RObj.blob [9]),
   (("manifests/main.json"), RObj.manifestObj demoManifest)]

end R2Demo

namespace R2Model

theorem lookupKey_putKey_self (s : Store) (k : String) (v : RObj) :
    lookupKey (putKey s k v) k = some v := by
  simp [putKey, lookupKey]

theorem lookupKey_eraseKey_self (s : Store) (k : String) :
    lookupKey (eraseKey s k) k = none := by
  induction s with
  | nil => rfl
  | cons hd tl ih =>
    obtain ⟨k0, v⟩ := hd
    by_cases h : k0 = k <;> simp [eraseKey, lookupKey, h, ih]

theorem lookupKey_eraseKey_ne (s : Store) (k0 k : String) (h : k0 ≠ k) :
    lookupKey (eraseKey s k0) k = lookupKey s k := by
  induction s with
  | nil => rfl
  | cons hd tl ih =>
    obtain ⟨k1, v⟩ := hd
    by_cases h1 : k1 = k0
    · subst h1
      simp [eraseKey, lookupKey, h, ih]
    · by_cases h2 : k1 = k <;> simp [eraseKey, lookupKey, h1, h2, ih, Ne.symm h]

theorem lookupKey_putKey_ne (s : Store) (k0 k : String) (v : RObj) (h : k0 ≠ k) :
    lookupKey (putKey s k0 v) k = lookupKey s k := by
  simp [putKey, lookupKey, h, lookupKey_eraseKey_ne s k0 k h]

theorem isSome_lookupKey_putKey (s : Store) (k0 k : String) (v : RObj)
    (h : (lookupKey s k).isSome = true) :
    (lookupKey (putKey s k0 v) k).isSome = true := by
  by_cases hk : k0 = k
  · subst hk
    simp [lookupKey_putKey_self]
  · rw [lookupKey_putKey_ne s k0 k v hk]
    exact h

theorem lookupKey_eraseKey_none (s : Store) (k0 k : String)
    (h : lookupKey s k = none) :
    lookupKey (eraseKey s k0) k = none := by
  by_cases hk : k0 = k
  · subst hk
    exact lookupKey_eraseKey_self s k0
  · rw [lookupKey_eraseKey_ne s k0 k hk]
    exact h

end R2Model

open R2Model

/-- The reference-collection loops of the two scripts agree. -/
theorem collectReferenced_agree (s : Store) (ns : List String) :
    R2.collectReferenced s ns = CR2.collectReferenced s ns := by
  have hg : ∀ k, CR2.get_manifest s k = R2.get_manifest s k := fun _ => rfl
  induction ns with
  | nil => rfl
  | cons n ns ih =>
    simp only [R2.collectReferenced, CR2.collectReferenced, hg]
    cases R2.get_manifest s (("manifests/") ++ n ++ (".json")) with
    | none => exact ih
    | some m =>
      by_cases hm : m.isEmpty <;> simp [hm, ih]

/-- The orphan sets of the two scripts agree. -/
theorem orphansOf_agree (s : Store) (open_prs : List Nat) :
    R2.orphansOf s open_prs = CR2.orphansOf s open_prs := by
  simp only [R2.orphansOf, CR2.orphansOf, collectReferenced_agree]
  rfl

/-- The two cleanup implementations agree on every input. -/
theorem cleanup_impls_agree (s : Store) (closed_pr : Nat) (open_prs : List Nat)
    (dry_run : Bool) (mDelFail : Bool) (delFail : List String) :
    R2.cmd_cleanup s closed_pr open_prs dry_run mDelFail delFail =
      CR2.cleanup_r2 s closed_pr open_prs dry_run mDelFail delFail := by
  simp only [R2.cmd_cleanup, CR2.cleanup_r2, orphansOf_agree]

/-- C10: on identical inputs (bucket state, closed PR id, open PR ids,
dry-run flag, and identical backend failure behaviour), the cleanup
subcommand of r2.py and the standalone cleanup_r2.py compute the same
referenced and orphan sets, issue the same deletions, leave the same
bucket state, and report the same counts and exit status. -/
theorem cmd_cleanup_eq_cleanup_r2 (s : Store) (closed_pr : Nat) (open_prs : List Nat)
    (dry_run : Bool) (mDelFail : Bool) (delFail : List String) :
    R2.cmd_cleanup s closed_pr open_prs dry_run mDelFail delFail =
      CR2.cleanup_r2 s closed_pr open_prs dry_run mDelFail delFail ∧
    R2.collectReferenced s (R2.activeNamesOf open_prs) =
      CR2.collectReferenced s (CR2.activeNamesOf open_prs) ∧
    R2.orphansOf s open_prs = CR2.orphansOf s open_prs :=
  ⟨cleanup_impls_agree s closed_pr open_prs dry_run mDelFail delFail,
   collectReferenced_agree s (R2.activeNamesOf open_prs),
   orphansOf_agree s open_prs⟩

/-- C5: a dry-run cleanup performs no mutation at all: it issues no delete
and no put, leaves the bucket state unchanged, reports the orphan count
with zero deleted blobs and manifest-not-deleted, and exits 0 — in both
scripts. -/
theorem cleanup_dry_run_pure (s : Store) (closed_pr : Nat) (open_prs : List Nat)
    (mDelFail : Bool) (delFail : List String) :
    R2.cmd_cleanup s closed_pr open_prs true mDelFail delFail =
      { store := s
        stats := { orphanedBlobs := (R2.orphansOf s open_prs).length, deletedBlobs := 0,
                   deletedManifest := false }
        exitCode := 0
        manifestDeleteIssued := false
        blobDeletesIssued := [] } ∧
    CR2.cleanup_r2 s closed_pr open_prs true mDelFail delFail =
      { store := s
        stats := { orphanedBlobs := (CR2.orphansOf s open_prs).length, deletedBlobs := 0,
                   deletedManifest := false }
        exitCode := 0
        manifestDeleteIssued := false
        blobDeletesIssued := [] } :=
  ⟨rfl, rfl⟩

namespace R2

theorem firstFailing_nil_fails (l : List (SrcFile × String)) :
    firstFailing [] l = none := by
  induction l with
  | nil => rfl
  | cons hd tl ih =>
    obtain ⟨f, k⟩ := hd
    simp [firstFailing, ih]

theorem firstFailing_eq_none_iff (fails : List String) (l : List (SrcFile × String)) :
    firstFailing fails l = none ↔ ∀ p ∈ l, p.2 ∉ fails := by
  induction l with
  | nil => simp [firstFailing]
  | cons hd tl ih =>
    obtain ⟨f, k⟩ := hd
    by_cases hk : k ∈ fails <;> simp [firstFailing, hk, ih]

theorem firstFailing_isSome_iff (fails : List String) (l : List (SrcFile × String)) :
    (firstFailing fails l).isSome = true ↔ ∃ p ∈ l, p.2 ∈ fails := by
  rw [Option.isSome_iff_ne_none]
  rw [ne_eq, firstFailing_eq_none_iff]
  push_neg
  rfl

theorem toUploadOf_eq_nil (sha : List Nat → String) (s : Store) (files : List SrcFile)
    (h : ∀ f ∈ files, blob_exists s (blob_key sha f) = true) :
    toUploadOf sha s files = [] := by
  induction files with
  | nil => rfl
  | cons f fs ih =>
    have hf := h f (by simp)
    simp [toUploadOf, hf]
    exact ih (fun g hg => h g (by simp [hg]))

theorem mem_toUploadOf (sha : List Nat → String) (s : Store) (files : List SrcFile)
    (f : SrcFile) (hf : f ∈ files) (h : blob_exists s (blob_key sha f) = false) :
    (f, blob_key sha f) ∈ toUploadOf sha s files := by
  induction files with
  | nil => cases hf
  | cons g fs ih =>
    rcases List.mem_cons.mp hf with hfg | hmem
    · subst hfg
      simp [toUploadOf, h]
    · by_cases hg : blob_exists s (blob_key sha g) = true <;>
        simp [toUploadOf, hg, ih hmem]

theorem blob_exists_putBlobs_of (fails : List String) (st : Store)
    (l : List (SrcFile × String)) (k : String)
    (h : blob_exists st k = true) :
    blob_exists (putBlobs fails st l) k = true := by
  induction l generalizing st with
  | nil => exact h
  | cons hd tl ih =>
    obtain ⟨f, k0⟩ := hd
    simp only [putBlobs]
    apply ih
    by_cases hk0 : k0 ∈ fails
    · rw [if_pos hk0]
      exact h
    · rw [if_neg hk0]
      exact isSome_lookupKey_putKey st k0 k (RObj.blob f.content) h

theorem blob_exists_putBlobs_mem (st : Store) (l : List (SrcFile × String))
    (f : SrcFile) (k : String) (hmem : (f, k) ∈ l) :
    blob_exists (putBlobs [] st l) k = true := by
  induction l generalizing st with
  | nil => cases hmem
  | cons hd tl ih =>
    obtain ⟨g, k0⟩ := hd
    rcases List.mem_cons.mp hmem with heq | hmem2
    · cases heq
      simp only [putBlobs]
      rw [if_neg (List.not_mem_nil k)]
      exact blob_exists_putBlobs_of [] _ tl k
        (by simp [blob_exists, lookupKey_putKey_self])
    · simp only [putBlobs]
      exact ih _ hmem2

end R2

namespace R2

theorem dictInsert_ne_nil (m : Manifest) (k : String) (v : MEntry) :
    dictInsert m k v ≠ [] := by
  cases m with
  | nil => simp [dictInsert]
  | cons hd rest =>
    obtain ⟨k0, v0⟩ := hd
    by_cases h : k0 = k <;> simp [dictInsert, h]

theorem buildManifestFrom_ne_nil (sha : List Nat → String) (acc : Manifest)
    (fs : List SrcFile) (h : acc ≠ []) :
    buildManifestFrom sha acc fs ≠ [] := by
  induction fs generalizing acc with
  | nil => exact h
  | cons f fs ih =>
    simp only [buildManifestFrom]
    exact ih _ (dictInsert_ne_nil _ _ _)

theorem buildManifest_eq_nil_iff (sha : List Nat → String) (files : List SrcFile) :
    buildManifest sha files = [] ↔ files = [] := by
  cases files with
  | nil => simp [buildManifest, buildManifestFrom]
  | cons f fs =>
    constructor
    · intro h
      exact absurd h
        (buildManifestFrom_ne_nil sha _ fs (dictInsert_ne_nil [] _ _))
    · intro h
      cases h

theorem mem_scanTrace_shape (sha : List Nat → String) (files : List SrcFile)
    (e : Ev) (he : e ∈ scanTrace sha files) :
    isPutBlobEv e = false ∧ isPutManifestEv e = false ∧ isWriteEv e = false := by
  induction files with
  | nil => cases he
  | cons f fs ih =>
    rcases List.mem_cons.mp he with h1 | he2
    · subst h1
      exact ⟨rfl, rfl, rfl⟩
    · rcases List.mem_cons.mp he2 with h2 | he3
      · subst h2
        exact ⟨rfl, rfl, rfl⟩
      · exact ih he3

theorem mem_putTrace_shape (fails : List String) (l : List (SrcFile × String))
    (e : Ev) (he : e ∈ putTrace fails l) :
    isPutBlobEv e = true ∧ isScanEv e = false ∧ isPutManifestEv e = false := by
  induction l with
  | nil => cases he
  | cons hd tl ih =>
    obtain ⟨f, k⟩ := hd
    by_cases hk : k ∈ fails
    · rw [putTrace, if_pos hk] at he
      exact ih he
    · rw [putTrace, if_neg hk] at he
      rcases List.mem_cons.mp he with h1 | he2
      · subst h1
        exact ⟨rfl, rfl, rfl⟩
      · exact ih he2

/-- After a fully successful non-dry upload run, the blob key of every
scanned file is present in the store: it either already existed (and blob
puts and the manifest put preserve presence) or was scheduled and
uploaded. -/
theorem blob_exists_after_upload (sha : List Nat → String) (s : Store)
    (files : List SrcFile) (name : String) (f : SrcFile) (hf : f ∈ files) :
    blob_exists (cmd_upload sha s true files name false []).store (blob_key sha f) = true := by
  have hnone := firstFailing_nil_fails (toUploadOf sha s files)
  simp only [cmd_upload, if_pos, if_neg, Bool.false_eq_true, if_false, hnone]
  apply isSome_lookupKey_putKey
  by_cases hex : blob_exists s (blob_key sha f) = true
  · exact blob_exists_putBlobs_of [] s _ _ hex
  · have hmem := mem_toUploadOf sha s files f hf (by simpa using hex)
    exact blob_exists_putBlobs_mem s _ f _ hmem

end R2

namespace R2

/-- Shape of a non-dry run that observes an upload failure. -/
theorem cmd_upload_exn_eq (sha : List Nat → String) (s : Store) (files : List SrcFile)
    (name : String) (fails : List String) (k : String)
    (hk : firstFailing fails (toUploadOf sha s files) = some k) :
    cmd_upload sha s true files name false fails =
      { store := putBlobs fails s (toUploadOf sha s files)
        trace := scanTrace sha files ++ putTrace fails (toUploadOf sha s files)
        result := RunResult.exn k } := by
  simp [cmd_upload, hk]

/-- Shape of a non-dry run whose scheduled uploads all succeed. -/
theorem cmd_upload_ok_eq (sha : List Nat → String) (s : Store) (files : List SrcFile)
    (name : String) (fails : List String)
    (hk : firstFailing fails (toUploadOf sha s files) = none) :
    cmd_upload sha s true files name false fails =
      { store := putKey (putBlobs fails s (toUploadOf sha s files))
                   (("manifests/") ++ name ++ (".json"))
                   (RObj.manifestObj (buildManifest sha files))
        trace := (scanTrace sha files ++ putTrace fails (toUploadOf sha s files))
                   ++ [Ev.putManifest (("manifests/") ++ name ++ (".json"))]
        result := RunResult.ok (if (buildManifest sha files).length = 0 then 1 else 0) } := by
  simp [cmd_upload, hk]

/-- C3: fail-fast — whenever some scheduled blob upload fails, the run
ends in the uncaught upload exception and no manifest put is ever issued,
so a published manifest never references a blob whose upload failed. -/
theorem upload_failfast (sha : List Nat → String) (s : Store) (files : List SrcFile)
    (name : String) (fails : List String)
    (h : ∃ p ∈ toUploadOf sha s files, p.2 ∈ fails) :
    isExnRes (cmd_upload sha s true files name false fails).result = true ∧
    (cmd_upload sha s true files name false fails).trace.countP isPutManifestEv = 0 := by
  obtain ⟨k, hk⟩ := Option.isSome_iff_exists.mp ((firstFailing_isSome_iff _ _).mpr h)
  rw [cmd_upload_exn_eq sha s files name fails k hk]
  refine ⟨rfl, ?_⟩
  rw [List.countP_eq_zero]
  intro e he
  rcases List.mem_append.mp he with h1 | h2
  · simp [(mem_scanTrace_shape sha files e h1).2.1]
  · simp [(mem_putTrace_shape fails _ e h2).2.2]

/-- C3 witness: a concrete failing upload run. -/
theorem upload_failfast_witness :
    isExnRes (cmd_upload R2Demo.demoSha [] true [R2Demo.fHtml] ("pr-1") false
      [("blobs/h1.html")]).result = true ∧
    (cmd_upload R2Demo.demoSha [] true [R2Demo.fHtml] ("pr-1") false
      [("blobs/h1.html")]).trace.countP isPutManifestEv = 0 :=
  upload_failfast R2Demo.demoSha [] [R2Demo.fHtml] ("pr-1") [("blobs/h1.html")]
    (by decide)

/-- C9: a non-dry-run upload of an existing directory with zero regular
files still publishes an empty manifest at manifests/<name>.json,
overwriting any prior object under that key, and returns the failure
result 1. -/
theorem upload_empty_tree_publishes (sha : List Nat → String) (s : Store)
    (name : String) (fails : List String) :
    (cmd_upload sha s true [] name false fails).result = RunResult.ok 1 ∧
    lookupKey (cmd_upload sha s true [] name false fails).store
      (("manifests/") ++ name ++ (".json")) = some (RObj.manifestObj []) ∧
    (cmd_upload sha s true [] name false fails).trace =
      [Ev.putManifest (("manifests/") ++ name ++ (".json"))] := by
  have h := cmd_upload_ok_eq sha s [] name fails (by rfl)
  rw [h]
  exact ⟨rfl, lookupKey_putKey_self _ _ _, rfl⟩

/-- C7: re-running upload over the store left by a successful run on the
same tree schedules nothing (every existence check hits), performs zero
blob PUTs, republishes the manifest exactly once, and both runs leave the
identical manifest (the one determined by the tree alone) under the
manifest key. -/
theorem upload_idempotent (sha : List Nat → String) (s : Store) (files : List SrcFile)
    (name : String) (fails2 : List String) :
    toUploadOf sha (cmd_upload sha s true files name false []).store files = [] ∧
    (cmd_upload sha (cmd_upload sha s true files name false []).store
      true files name false fails2).trace.countP isPutBlobEv = 0 ∧
    (cmd_upload sha (cmd_upload sha s true files name false []).store
      true files name false fails2).trace.countP isPutManifestEv = 1 ∧
    lookupKey (cmd_upload sha (cmd_upload sha s true files name false []).store
      true files name false fails2).store (("manifests/") ++ name ++ (".json")) =
      some (RObj.manifestObj (buildManifest sha files)) ∧
    lookupKey (cmd_upload sha s true files name false []).store
      (("manifests/") ++ name ++ (".json")) =
      some (RObj.manifestObj (buildManifest sha files)) := by
  have h1 : toUploadOf sha (cmd_upload sha s true files name false []).store files = [] :=
    toUploadOf_eq_nil sha _ files
      (fun f hf => blob_exists_after_upload sha s files name f hf)
  have hnone2 : firstFailing fails2
      (toUploadOf sha (cmd_upload sha s true files name false []).store files) = none := by
    rw [h1]
    rfl
  have h2 := cmd_upload_ok_eq sha (cmd_upload sha s true files name false []).store
    files name fails2 hnone2
  have hscan0 : ∀ pq : Ev → Bool, (∀ e ∈ scanTrace sha files, pq e = false) →
      (scanTrace sha files).countP pq = 0 := by
    intro pq hpq
    rw [List.countP_eq_zero]
    intro e he
    simp [hpq e he]
  refine ⟨h1, ?_, ?_, ?_, ?_⟩
  · rw [h2]
    simp only [h1, putTrace, List.countP_append]
    have := hscan0 isPutBlobEv (fun e he => (mem_scanTrace_shape sha files e he).1)
    simp [this, isPutBlobEv]
  · rw [h2]
    simp only [h1, putTrace, List.countP_append]
    have := hscan0 isPutManifestEv (fun e he => (mem_scanTrace_shape sha files e he).2.1)
    simp [this, isPutManifestEv]
  · rw [h2]
    exact lookupKey_putKey_self _ _ _
  · rw [cmd_upload_ok_eq sha s files name [] (firstFailing_nil_fails _)]
    exact lookupKey_putKey_self _ _ _

end R2

namespace R2

theorem cmd_upload_dry_eq (sha : List Nat → String) (s : Store) (files : List SrcFile)
    (name : String) (fails : List String) :
    cmd_upload sha s true files name true fails =
      { store := s, trace := scanTrace sha files, result := RunResult.ok 0 } := by
  simp [cmd_upload]

theorem cmd_upload_nodir_eq (sha : List Nat → String) (s : Store) (files : List SrcFile)
    (name : String) (dry : Bool) (fails : List String) :
    cmd_upload sha s false files name dry fails =
      { store := s, trace := [], result := RunResult.ok 1 } := by
  simp [cmd_upload]

theorem phaseOrdered_no_q (p q : Ev → Bool) (t : List Ev)
    (h : ∀ e ∈ t, q e = false) : phaseOrdered p q t = true := by
  induction t with
  | nil => rfl
  | cons e rest ih =>
    simp only [phaseOrdered, Bool.and_eq_true, Bool.or_eq_true]
    exact ⟨Or.inl (by simp [h e (by simp)]), ih (fun x hx => h x (by simp [hx]))⟩

theorem phaseOrdered_no_p (p q : Ev → Bool) (t : List Ev)
    (h : ∀ e ∈ t, p e = false) : phaseOrdered p q t = true := by
  induction t with
  | nil => rfl
  | cons e rest ih =>
    simp only [phaseOrdered, Bool.and_eq_true, Bool.or_eq_true]
    refine ⟨Or.inr ?_, ih (fun x hx => h x (by simp [hx]))⟩
    rw [List.all_eq_true]
    intro x hx
    simp [h x (by simp [hx])]

theorem phaseOrdered_append (p q : Ev → Bool) (t1 t2 : List Ev)
    (h1 : ∀ e ∈ t1, q e = false) (h2 : ∀ e ∈ t2, p e = false) :
    phaseOrdered p q (t1 ++ t2) = true := by
  induction t1 with
  | nil => simpa using phaseOrdered_no_p p q t2 h2
  | cons e rest ih =>
    simp only [List.cons_append, phaseOrdered, Bool.and_eq_true, Bool.or_eq_true]
    exact ⟨Or.inl (by simp [h1 e (by simp)]),
      ih (fun x hx => h1 x (by simp [hx]))⟩

theorem countP_eq_zero_of_false {pq : Ev → Bool} (t : List Ev)
    (h : ∀ e ∈ t, pq e = false) : t.countP pq = 0 := by
  rw [List.countP_eq_zero]
  intro e he
  simp [h e he]

/-- C4 counterexample: in a run over two files, the first file's existence
check (a network call) is issued before the second file is hashed, so the
scan/hash phase does not strictly precede every network call. -/
theorem scan_not_before_network :
    phaseOrdered isScanEv isNetworkEv
      (cmd_upload R2Demo.demoSha [] true [R2Demo.fHtml, R2Demo.fCss]
        ("main") false []).trace = false := by
  decide

/-- C4 amended: the scan/hash loop interleaves per-file existence checks
(network reads) with hashing, so what the code guarantees is: every local
hash step strictly precedes every network write (blob PUT or manifest PUT),
the manifest PUT strictly follows every blob PUT, and a manifest PUT occurs
only in runs in which no scheduled blob upload failed. -/
theorem upload_phase_order (sha : List Nat → String) (s : Store) (distOk : Bool)
    (files : List SrcFile) (name : String) (dry : Bool) (fails : List String) :
    phaseOrdered isScanEv isWriteEv
      (cmd_upload sha s distOk files name dry fails).trace = true ∧
    phaseOrdered isPutBlobEv isPutManifestEv
      (cmd_upload sha s distOk files name dry fails).trace = true ∧
    (0 < (cmd_upload sha s distOk files name dry fails).trace.countP isPutManifestEv →
      ∀ p ∈ toUploadOf sha s files, p.2 ∉ fails) := by
  cases distOk with
  | false =>
    rw [cmd_upload_nodir_eq]
    exact ⟨rfl, rfl, by intro h; cases h⟩
  | true =>
    cases dry with
    | true =>
      rw [cmd_upload_dry_eq]
      refine ⟨?_, ?_, ?_⟩
      · exact phaseOrdered_no_q _ _ _
          (fun e he => (mem_scanTrace_shape sha files e he).2.2)
      · exact phaseOrdered_no_q _ _ _
          (fun e he => (mem_scanTrace_shape sha files e he).2.1)
      · intro hpos
        rw [countP_eq_zero_of_false _
          (fun e he => (mem_scanTrace_shape sha files e he).2.1)] at hpos
        cases hpos
    | false =>
      cases hk : firstFailing fails (toUploadOf sha s files) with
      | some k =>
        rw [cmd_upload_exn_eq sha s files name fails k hk]
        refine ⟨?_, ?_, ?_⟩
        · exact phaseOrdered_append _ _ _ _
            (fun e he => (mem_scanTrace_shape sha files e he).2.2)
            (fun e he => (mem_putTrace_shape fails _ e he).2.1)
        · refine phaseOrdered_no_q _ _ _ ?_
          intro e he
          rcases List.mem_append.mp he with h1 | h2
          · exact (mem_scanTrace_shape sha files e h1).2.1
          · exact (mem_putTrace_shape fails _ e h2).2.2
        · intro hpos
          have h0 : (scanTrace sha files ++
              putTrace fails (toUploadOf sha s files)).countP isPutManifestEv = 0 := by
            refine countP_eq_zero_of_false _ ?_
            intro e he
            rcases List.mem_append.mp he with h1 | h2
            · exact (mem_scanTrace_shape sha files e h1).2.1
            · exact (mem_putTrace_shape fails _ e h2).2.2
          rw [h0] at hpos
          cases hpos
      | none =>
        rw [cmd_upload_ok_eq sha s files name fails hk]
        refine ⟨?_, ?_, ?_⟩
        · rw [List.append_assoc]
          refine phaseOrdered_append _ _ _ _
            (fun e he => (mem_scanTrace_shape sha files e he).2.2) ?_
          intro e he
          rcases List.mem_append.mp he with h1 | h2
          · exact (mem_putTrace_shape fails _ e h1).2.1
          · simp only [List.mem_singleton] at h2
            subst h2
            rfl
        · refine phaseOrdered_append _ _ _ _ ?_ ?_
          · intro e he
            rcases List.mem_append.mp he with h1 | h2
            · exact (mem_scanTrace_shape sha files e h1).2.1
            · exact (mem_putTrace_shape fails _ e h2).2.2
          · intro e he
            simp only [List.mem_singleton] at he
            subst he
            rfl
        · intro hpos
          exact (firstFailing_eq_none_iff fails _).mp hk

/-- C4 witness: a concrete successful run, with the ordering facts and the
no-failed-upload consequence of its manifest publication. -/
theorem upload_phase_order_witness :
    phaseOrdered isScanEv isWriteEv
      (cmd_upload R2Demo.demoSha [] true [R2Demo.fHtml] ("main") false []).trace = true ∧
    (R2Demo.fHtml, ("blobs/h1.html")).2 ∉ ([] : List String) :=
  ⟨(upload_phase_order R2Demo.demoSha [] true [R2Demo.fHtml] ("main") false []).1,
   (upload_phase_order R2Demo.demoSha [] true [R2Demo.fHtml] ("main") false []).2.2
     (by decide) (R2Demo.fHtml, ("blobs/h1.html")) (by decide)⟩

/-- C2 counterexample: byte-identical files with different extensions get
different blob keys (the key embeds the file extension), and two
byte-identical same-extension files scanned in one run over an empty store
are both scheduled, causing two PUTs of that content's key in that run. -/
theorem blob_key_not_name_free :
    R2Demo.fHtml.content = R2Demo.fCss.content ∧
    blob_key R2Demo.demoSha R2Demo.fHtml ≠ blob_key R2Demo.demoSha R2Demo.fCss ∧
    (cmd_upload R2Demo.demoSha [] true [R2Demo.fDupA, R2Demo.fDupB]
      ("pr-1") false []).trace.countP
      (fun e => decide (e = Ev.putBlob (blob_key R2Demo.demoSha R2Demo.fDupA))) = 2 := by
  exact ⟨rfl, by decide, by decide⟩

/-- C2 amended: equal bytes always give equal hashes; equal bytes and equal
extensions give equal blob keys regardless of path, name or run; and after
a successful run uploaded one of the files, a later run never schedules or
PUTs the shared key again — so two runs perform at most one blob PUT for
that content. -/
theorem blob_key_content_addressed (sha : List Nat → String) (f1 f2 : SrcFile)
    (hc : f1.content = f2.content) :
    hash_file sha f1 = hash_file sha f2 ∧
    (get_extension f1 = get_extension f2 → blob_key sha f1 = blob_key sha f2) ∧
    (get_extension f1 = get_extension f2 →
      ∀ (s : Store) (n1 n2 : String) (fails2 : List String),
        (cmd_upload sha (cmd_upload sha s true [f1] n1 false []).store
          true [f2] n2 false fails2).trace.countP
          (fun e => decide (e = Ev.putBlob (blob_key sha f2))) = 0) := by
  have hh : hash_file sha f1 = hash_file sha f2 := by
    simp [hash_file, hc]
  have hkey : get_extension f1 = get_extension f2 → blob_key sha f1 = blob_key sha f2 := by
    intro hext
    simp [blob_key, hh, hext]
  refine ⟨hh, hkey, ?_⟩
  intro hext s n1 n2 fails2
  have hex : blob_exists (cmd_upload sha s true [f1] n1 false []).store
      (blob_key sha f2) = true := by
    rw [← hkey hext]
    exact blob_exists_after_upload sha s [f1] n1 f1 (by simp)
  have h1 : toUploadOf sha (cmd_upload sha s true [f1] n1 false []).store [f2] = [] := by
    refine toUploadOf_eq_nil sha _ [f2] ?_
    intro g hg
    simp only [List.mem_singleton] at hg
    subst hg
    exact hex
  have hnone : firstFailing fails2
      (toUploadOf sha (cmd_upload sha s true [f1] n1 false []).store [f2]) = none := by
    rw [h1]
    rfl
  rw [cmd_upload_ok_eq sha _ [f2] n2 fails2 hnone]
  refine countP_eq_zero_of_false _ ?_
  intro e he
  rcases List.mem_append.mp he with h12 | h3
  · rcases List.mem_append.mp h12 with hscan | hput
    · have := (mem_scanTrace_shape sha [f2] e hscan).1
      cases e <;> simp_all [isPutBlobEv]
    · rw [h1] at hput
      cases hput
  · simp only [List.mem_singleton] at h3
    subst h3
    simp

/-- C2 witness: a concrete pair of byte-identical files. -/
theorem blob_key_content_addressed_witness :
    hash_file R2Demo.demoSha R2Demo.fDupA = hash_file R2Demo.demoSha R2Demo.fDupB ∧
    (cmd_upload R2Demo.demoSha
      (cmd_upload R2Demo.demoSha [] true [R2Demo.fDupA] ("pr-1") false []).store
      true [R2Demo.fDupB] ("pr-2") false []).trace.countP
      (fun e => decide (e = Ev.putBlob (blob_key R2Demo.demoSha R2Demo.fDupB))) = 0 :=
  ⟨(blob_key_content_addressed R2Demo.demoSha R2Demo.fDupA R2Demo.fDupB rfl).1,
   (blob_key_content_addressed R2Demo.demoSha R2Demo.fDupA R2Demo.fDupB rfl).2.2
     rfl [] ("pr-1") ("pr-2") []⟩

/-- C8 counterexample: a dry-run upload of an existing directory in which
zero regular files are found exits 0, not 1. -/
theorem upload_exit_zero_files_dry :
    (cmd_upload R2Demo.demoSha [] true [] ("main") true []).result = RunResult.ok 0 ∧
    exitCodeOf (cmd_upload R2Demo.demoSha [] true [] ("main") true []).result ≠ 1 :=
  ⟨rfl, by decide⟩

/-- C8 amended: for a non-dry-run invocation on an existing directory the
exit status is 1 exactly when some scheduled blob upload fails or zero
regular files are found, and 0 otherwise; a dry-run invocation exits 0
after the scan regardless of the file count; a missing directory exits 1. -/
theorem upload_exit_code (sha : List Nat → String) (s : Store) (files : List SrcFile)
    (name : String) (dry : Bool) (fails : List String) :
    exitCodeOf (cmd_upload sha s true files name false fails).result =
      (if ∃ p ∈ toUploadOf sha s files, p.2 ∈ fails then 1
       else if files = [] then 1 else 0) ∧
    (cmd_upload sha s true files name true fails).result = RunResult.ok 0 ∧
    (cmd_upload sha s false files name dry fails).result = RunResult.ok 1 := by
  refine ⟨?_, by rw [cmd_upload_dry_eq], by rw [cmd_upload_nodir_eq]⟩
  cases hk : firstFailing fails (toUploadOf sha s files) with
  | some k =>
    rw [cmd_upload_exn_eq sha s files name fails k hk]
    have hex : ∃ p ∈ toUploadOf sha s files, p.2 ∈ fails := by
      have := (firstFailing_isSome_iff fails (toUploadOf sha s files)).mp (by rw [hk]; rfl)
      exact this
    rw [if_pos hex]
    rfl
  | none =>
    rw [cmd_upload_ok_eq sha s files name fails hk]
    have hnex : ¬ ∃ p ∈ toUploadOf sha s files, p.2 ∈ fails := by
      intro hex
      have := (firstFailing_isSome_iff fails (toUploadOf sha s files)).mpr hex
      rw [hk] at this
      cases this
    rw [if_neg hnex]
    by_cases hfiles : files = []
    · rw [if_pos hfiles]
      have : (buildManifest sha files).length = 0 := by
        rw [List.length_eq_zero, buildManifest_eq_nil_iff]
        exact hfiles
      simp [exitCodeOf, this]
    · rw [if_neg hfiles]
      have : (buildManifest sha files).length ≠ 0 := by
        rw [ne_eq, List.length_eq_zero, buildManifest_eq_nil_iff]
        exact hfiles
      simp [exitCodeOf, this]

end R2

namespace R2Model

theorem lookupKey_foldl_eraseKey_none (df : List String) (l : List String)
    (st : Store) (k : String) (h : lookupKey st k = none) :
    lookupKey (l.foldl (fun st k => if k ∈ df then st else eraseKey st k) st) k = none := by
  induction l generalizing st with
  | nil => exact h
  | cons a l ih =>
    simp only [List.foldl_cons]
    apply ih
    by_cases ha : a ∈ df
    · rw [if_pos ha]
      exact h
    · rw [if_neg ha]
      exact lookupKey_eraseKey_none st a k h

theorem lookupKey_foldl_eraseKey (df : List String) (l : List String)
    (st : Store) (k : String) (hk : k ∈ l) (hnf : k ∉ df) :
    lookupKey (l.foldl (fun st k => if k ∈ df then st else eraseKey st k) st) k = none := by
  induction l generalizing st with
  | nil => cases hk
  | cons a l ih =>
    simp only [List.foldl_cons]
    by_cases hak : a = k
    · subst hak
      rw [if_neg hnf]
      exact lookupKey_foldl_eraseKey_none df l _ a (lookupKey_eraseKey_self st a)
    · rcases List.mem_cons.mp hk with h1 | h2
      · exact absurd h1.symm hak
      · exact ih _ h2

end R2Model

namespace R2

theorem mem_collectReferenced (s : Store) (names : List String) (k : String) :
    k ∈ collectReferenced s names ↔
      ∃ n, n ∈ names ∧ ∃ m, get_manifest s (("manifests/") ++ n ++ (".json")) = some m ∧
        k ∈ m.map (fun pe => pe.2.blob) := by
  induction names with
  | nil => simp [collectReferenced]
  | cons n ns ih =>
    simp only [collectReferenced, List.mem_cons]
    cases hg : get_manifest s (("manifests/") ++ n ++ (".json")) with
    | none =>
      rw [ih]
      constructor
      · rintro ⟨n1, hn1, rest⟩
        exact ⟨n1, Or.inr hn1, rest⟩
      · rintro ⟨n1, hn1 | hn1, rest⟩
        · subst hn1
          obtain ⟨m, hm, _⟩ := rest
          rw [hg] at hm
          cases hm
        · exact ⟨n1, hn1, rest⟩
    | some m =>
      cases m with
      | nil =>
        simp only [List.isEmpty_nil, if_true]
        rw [ih]
        constructor
        · rintro ⟨n1, hn1, rest⟩
          exact ⟨n1, Or.inr hn1, rest⟩
        · rintro ⟨n1, hn1 | hn1, rest⟩
          · subst hn1
            obtain ⟨m1, hm1, hk1⟩ := rest
            rw [hg] at hm1
            cases hm1
            simp at hk1
          · exact ⟨n1, hn1, rest⟩
      | cons e es =>
        simp only [List.isEmpty_cons, Bool.false_eq_true, if_false]
        rw [List.mem_append, ih]
        constructor
        · rintro (hk1 | ⟨n1, hn1, rest⟩)
          · exact ⟨n, Or.inl rfl, e :: es, hg, hk1⟩
          · exact ⟨n1, Or.inr hn1, rest⟩
        · rintro ⟨n1, hn1 | hn1, rest⟩
          · subst hn1
            obtain ⟨m1, hm1, hk1⟩ := rest
            rw [hg] at hm1
            cases hm1
            exact Or.inl hk1
          · exact Or.inr ⟨n1, hn1, rest⟩

theorem mem_orphansOf (s : Store) (open_prs : List Nat) (k : String) :
    k ∈ orphansOf s open_prs ↔
      k ∈ (list_objects_with_pfx s ("blobs/")).dedup ∧
      k ∉ collectReferenced s (activeNamesOf open_prs) := by
  simp [orphansOf, List.mem_filter]

end R2

namespace R2

/-- C1: in a (non-dry-run) cleanup sweep, the set of blob keys submitted
for deletion is exactly AllBlobs minus ReferencedBlobs, where
ReferencedBlobs is the union of the blob fields of every successfully
loaded manifest among main and the open PRs; consequently no blob key
referenced by any manifest of the active set at the time of the run is in
the sweep's deletion set. -/
theorem cleanup_deletes_exactly_orphans (s : Store) (closed_pr : Nat)
    (open_prs : List Nat) (mDelFail : Bool) (delFail : List String) :
    (∀ k, k ∈ (cmd_cleanup s closed_pr open_prs false mDelFail delFail).blobDeletesIssued ↔
      (k ∈ (list_objects_with_pfx s ("blobs/")).dedup ∧
       ¬ ∃ n, n ∈ activeNamesOf open_prs ∧
         ∃ m, get_manifest s (("manifests/") ++ n ++ (".json")) = some m ∧
           k ∈ m.map (fun pe => pe.2.blob))) ∧
    (∀ k, (∃ n, n ∈ activeNamesOf open_prs ∧
         ∃ m, get_manifest s (("manifests/") ++ n ++ (".json")) = some m ∧
           k ∈ m.map (fun pe => pe.2.blob)) →
      k ∉ (cmd_cleanup s closed_pr open_prs false mDelFail delFail).blobDeletesIssued) := by
  have hb : (cmd_cleanup s closed_pr open_prs false mDelFail delFail).blobDeletesIssued =
      orphansOf s open_prs := rfl
  have hmem : ∀ k, k ∈ (cmd_cleanup s closed_pr open_prs false mDelFail delFail).blobDeletesIssued ↔
      (k ∈ (list_objects_with_pfx s ("blobs/")).dedup ∧
       ¬ ∃ n, n ∈ activeNamesOf open_prs ∧
         ∃ m, get_manifest s (("manifests/") ++ n ++ (".json")) = some m ∧
           k ∈ m.map (fun pe => pe.2.blob)) := by
    intro k
    rw [hb, mem_orphansOf, mem_collectReferenced]
  refine ⟨hmem, ?_⟩
  intro k href hin
  exact ((hmem k).mp hin).2 href

/-- C1 witness: in the concrete demo store, the referenced blob of the
main manifest is not in the deletion set of a concrete sweep. -/
theorem cleanup_deletes_exactly_orphans_witness :
    ("blobs/h1.html") ∉
      (cmd_cleanup R2Demo.demoStore 3 [] false false []).blobDeletesIssued :=
  (cleanup_deletes_exactly_orphans R2Demo.demoStore 3 [] false []).2
    ("blobs/h1.html")
    ⟨("main"), by decide, R2Demo.demoManifest, by decide, by decide⟩

/-- C6: a non-dry-run cleanup tolerates a failed closed-manifest delete
and any number of failed orphan-blob deletions: the remaining deletions
still execute (every non-failing orphan is gone afterwards), the run
completes reporting the orphan count, the number of blobs actually
deleted, and whether the manifest was deleted, and it exits 0 — and the
standalone script behaves identically. -/
theorem cleanup_best_effort (s : Store) (closed_pr : Nat) (open_prs : List Nat)
    (mDelFail : Bool) (delFail : List String) :
    (cmd_cleanup s closed_pr open_prs false mDelFail delFail).exitCode = 0 ∧
    (cmd_cleanup s closed_pr open_prs false mDelFail delFail).stats =
      { orphanedBlobs := (orphansOf s open_prs).length
        deletedBlobs :=
          ((orphansOf s open_prs).filter (fun k => !(decide (k ∈ delFail)))).length
        deletedManifest := !mDelFail } ∧
    (∀ k, k ∈ orphansOf s open_prs → k ∉ delFail →
      lookupKey (cmd_cleanup s closed_pr open_prs false mDelFail delFail).store k = none) ∧
    CR2.cleanup_r2 s closed_pr open_prs false mDelFail delFail =
      cmd_cleanup s closed_pr open_prs false mDelFail delFail := by
  refine ⟨rfl, rfl, ?_, (cleanup_impls_agree s closed_pr open_prs false mDelFail delFail).symm⟩
  intro k hk hnf
  exact lookupKey_foldl_eraseKey delFail (orphansOf s open_prs) _ k hk hnf

/-- C6 witness: a concrete sweep exits 0 and actually removes the
non-failing orphan. -/
theorem cleanup_best_effort_witness :
    (cmd_cleanup R2Demo.demoStore 3 [] false true []).exitCode = 0 ∧
    lookupKey (cmd_cleanup R2Demo.demoStore 3 [] false true []).store
      ("blobs/h9.css") = none :=
  ⟨(cleanup_best_effort R2Demo.demoStore 3 [] true []).1,
   (cleanup_best_effort R2Demo.demoStore 3 [] true []).2.2.1
     ("blobs/h9.css") (by decide) (by decide)⟩

end R2
